import Mathlib

/-!
Verification of the filename codec, incremental emitter, referral resolution
and run pipeline of the chayannito26/verify static-site generator
(`generate_verifications.py`).  Python functions are shallowly embedded as
executable Lean definitions; registrant dictionaries become a record of
optional fields, the filesystem becomes an explicit state value, and
exceptions become `Except` results.
-/

/-! ## Python string primitives -/

/-- Whitespace test used by Python's `str.strip` (the Unicode whitespace
code points recognised by CPython's string stripping). -/
def pyIsSpace (c : Char) : Bool :=
  decide (c.toNat ∈ [9, 10, 11, 12, 13, 28, 29, 30, 31, 32, 133, 160, 5760,
      8232, 8233, 8239, 8287, 12288] ∨ (8192 ≤ c.toNat ∧ c.toNat ≤ 8202))

/-- Python `str.strip()`: remove leading and trailing whitespace. -/
def pyStrip (s : String) : String :=
  String.mk (((s.data.dropWhile pyIsSpace).reverse.dropWhile pyIsSpace).reverse)

/-- Python `str.lower()` on a single character.  The identifiers, rolls and
names handled by this program are ASCII, and only the ASCII fragment of the
Unicode lowering table is ever exercised, so the embedding lowers `A`–`Z`
and leaves every other character unchanged (mirroring `Char.toLower`). -/
def pyToLowerChar (c : Char) : Char :=
  if 65 ≤ c.toNat ∧ c.toNat ≤ 90 then Char.ofNat (c.toNat + 32) else c

/-- Python `str.lower()`. -/
def pyLower (s : String) : String :=
  String.mk (s.data.map pyToLowerChar)

/-- Python truthiness of an optional string (`None` and `""` are falsy). -/
def truthy : Option String → Bool
  | none => false
  | some s => s ≠ ""

/-- Python `d.get(key, "")`: the value when present, else the empty string. -/
def getS (o : Option String) : String := o.getD ""

/-! ## Filename codec (`id_to_filename`, source lines 103–107) -/

/-- UTF-8 encoding of one Unicode scalar value (Python `str.encode("utf-8")`
acts code point by code point; `Char` carries exactly the scalar values). -/
def utf8EncodeChar (c : Char) : List Nat :=
  if c.toNat < 128 then [c.toNat]
  else if c.toNat < 2048 then [192 + c.toNat / 64, 128 + c.toNat % 64]
  else if c.toNat < 65536 then
    [224 + c.toNat / 4096, 128 + c.toNat / 64 % 64, 128 + c.toNat % 64]
  else
    [240 + c.toNat / 262144, 128 + c.toNat / 4096 % 64, 128 + c.toNat / 64 % 64,
      128 + c.toNat % 64]

/-- UTF-8 encoding of a whole string, as a list of bytes. -/
def utf8Encode (s : String) : List Nat := s.data.flatMap utf8EncodeChar

/-- The URL-safe Base64 alphabet of Python's `base64.urlsafe_b64encode`:
`A`–`Z`, `a`–`z`, `0`–`9`, `-`, `_`. -/
def b64UrlChar (n : Nat) : Char :=
  if n < 26 then Char.ofNat (65 + n)
  else if n < 52 then Char.ofNat (97 + (n - 26))
  else if n < 62 then Char.ofNat (48 + (n - 52))
  else if n = 62 then '-'
  else '_'

/-- Python `base64.urlsafe_b64encode`: three input bytes become four output
characters; a final group of one or two bytes is padded with `=`. -/
def b64UrlEncode : List Nat → List Char
  | [] => []
  | [b0] => [b64UrlChar (b0 / 4), b64UrlChar (b0 % 4 * 16), '=', '=']
  | [b0, b1] => [b64UrlChar (b0 / 4), b64UrlChar (b0 % 4 * 16 + b1 / 16),
      b64UrlChar (b1 % 16 * 4), '=']
  | b0 :: b1 :: b2 :: rest =>
    b64UrlChar (b0 / 4) :: b64UrlChar (b0 % 4 * 16 + b1 / 16) ::
      b64UrlChar (b1 % 16 * 4 + b2 / 64) :: b64UrlChar (b2 % 64) ::
      b64UrlEncode rest

/-- Python `str.rstrip("=")` on a character list: drop trailing `=`. -/
def rstripEqList (l : List Char) : List Char :=
  (l.reverse.dropWhile (· == '=')).reverse

/-- Python `codecs.encode(·, "rot_13")` on one character: the ROT13 charmap
rotates the ASCII letters by 13 positions within their case and leaves every
other character unchanged. -/
def rot13Char (c : Char) : Char :=
  if 97 ≤ c.toNat ∧ c.toNat ≤ 122 then
    if c.toNat ≤ 109 then Char.ofNat (c.toNat + 13) else Char.ofNat (c.toNat - 13)
  else if 65 ≤ c.toNat ∧ c.toNat ≤ 90 then
    if c.toNat ≤ 77 then Char.ofNat (c.toNat + 13) else Char.ofNat (c.toNat - 13)
  else c

/-- Python `codecs.encode(s, "rot_13")` on a character list. -/
def rot13 (l : List Char) : List Char := l.map rot13Char

/-- Translation of `id_to_filename` (source lines 103–107): URL-safe Base64
of the UTF-8 bytes, padding stripped, ROT13-encoded, then reversed. -/
def id_to_filename (s : String) : String :=
  String.mk (rot13 (rstripEqList (b64UrlEncode (utf8Encode s)))).reverse

/-- The call sites (source lines 996 and 1015) append `.html` to the codec
output to obtain the per-registrant filename. -/
def idToFile (rid : String) : String := id_to_filename rid ++ ".html"

/-- The spec's own wording of step 4 of the codec: a Caesar-cipher rotation
by 13 positions over alphabetic characters only, wrapping within the
26-letter alphabet independently for uppercase and lowercase, with
non-letters passed through unchanged. -/
def caesarRot13Spec (c : Char) : Char :=
  if 65 ≤ c.toNat ∧ c.toNat ≤ 90 then Char.ofNat (65 + (c.toNat - 65 + 13) % 26)
  else if 97 ≤ c.toNat ∧ c.toNat ≤ 122 then Char.ofNat (97 + (c.toNat - 97 + 13) % 26)
  else c

/-- The filename derivation as the spec words it: character-reversal of the
spec's Caesar rotation applied to the unpadded URL-safe Base64 encoding of
the UTF-8 bytes. -/
def specFilename (s : String) : String :=
  String.mk (((rstripEqList (b64UrlEncode (utf8Encode s))).map caesarRot13Spec).reverse)

/-! ## Inverses of the codec stages (used to prove injectivity) -/

/-- Inverse of the URL-safe Base64 alphabet. -/
def b64UrlInv (c : Char) : Nat :=
  if 65 ≤ c.toNat ∧ c.toNat ≤ 90 then c.toNat - 65
  else if 97 ≤ c.toNat ∧ c.toNat ≤ 122 then c.toNat - 97 + 26
  else if 48 ≤ c.toNat ∧ c.toNat ≤ 57 then c.toNat - 48 + 52
  else if c = '-' then 62
  else 63

/-- Decoder for unpadded URL-safe Base64 (left inverse of `b64UrlEncode`
followed by `rstripEqList`). -/
def b64UrlDecode : List Char → Option (List Nat)
  | [] => some []
  | [_] => none
  | [c0, c1] => some [b64UrlInv c0 * 4 + b64UrlInv c1 / 16]
  | [c0, c1, c2] => some [b64UrlInv c0 * 4 + b64UrlInv c1 / 16,
      b64UrlInv c1 % 16 * 16 + b64UrlInv c2 / 4]
  | c0 :: c1 :: c2 :: c3 :: rest =>
    (b64UrlDecode rest).map (fun t =>
      (b64UrlInv c0 * 4 + b64UrlInv c1 / 16) ::
        (b64UrlInv c1 % 16 * 16 + b64UrlInv c2 / 4) ::
        (b64UrlInv c2 % 4 * 64 + b64UrlInv c3) :: t)

/-- Decoder for one UTF-8 character: the decoded scalar value and the
remaining bytes. -/
def utf8DecodeOne : List Nat → Option (Char × List Nat)
  | [] => none
  | b :: rest =>
    if b < 128 then some (Char.ofNat b, rest)
    else if b < 192 then none
    else if b < 224 then
      match rest with
      | b1 :: rest2 =>
        if 128 ≤ b1 ∧ b1 < 192 then
          some (Char.ofNat ((b - 192) * 64 + (b1 - 128)), rest2)
        else none
      | [] => none
    else if b < 240 then
      match rest with
      | b1 :: b2 :: rest2 =>
        if (128 ≤ b1 ∧ b1 < 192) ∧ (128 ≤ b2 ∧ b2 < 192) then
          some (Char.ofNat ((b - 224) * 4096 + (b1 - 128) * 64 + (b2 - 128)), rest2)
        else none
      | _ => none
    else if b < 248 then
      match rest with
      | b1 :: b2 :: b3 :: rest2 =>
        if (128 ≤ b1 ∧ b1 < 192) ∧ (128 ≤ b2 ∧ b2 < 192) ∧ (128 ≤ b3 ∧ b3 < 192) then
          some (Char.ofNat ((b - 240) * 262144 + (b1 - 128) * 4096 +
            (b2 - 128) * 64 + (b3 - 128)), rest2)
        else none
      | _ => none
    else none

/-- Fuelled UTF-8 decoding loop (the fuel only bounds the number of decoded
characters; one byte of input is consumed per character at least). -/
def utf8DecodeLoop : Nat → List Nat → Option (List Char)
  | _, [] => some []
  | 0, _ :: _ => none
  | fuel + 1, b :: rest =>
    match utf8DecodeOne (b :: rest) with
    | some (c, rest2) => (utf8DecodeLoop fuel rest2).map (fun t => c :: t)
    | none => none

/-- UTF-8 decoder (left inverse of `utf8Encode`). -/
def utf8Decode (l : List Nat) : Option (List Char) := utf8DecodeLoop l.length l

/-- Full inverse of `id_to_filename`: undo the reversal, apply ROT13 again
(it is an involution), then decode Base64 and UTF-8. -/
def decodeFilename (f : String) : Option String :=
  ((b64UrlDecode (rot13 f.data.reverse)).bind utf8Decode).map String.mk

/-! ## Filesystem model and the incremental emitter
(`write_if_changed`, source lines 815–828) -/

/-- State of one on-disk file: its text content, and whether reading it back
succeeds (`path.read_text` can raise on permissions or encoding errors). -/
structure FileState where
  content : String
  readOk : Bool
deriving DecidableEq, Repr

/-- Filesystem state: a finite map from paths (component lists) to file
states, plus the set of existing directories. -/
structure FS where
  files : List String → Option FileState
  dirs : List String → Bool

/-- Console messages emitted by `write_if_changed`. -/
inductive EmitMsg where
  | unchangedMsg (p : List String)
  | readWarnMsg (p : List String)
  | wroteMsg (p : List String)
deriving DecidableEq, Repr

/-- Model of `path.parent.mkdir(parents=True, exist_ok=True)`: the parent
directory and all its ancestors come into existence. -/
def mkdirParents (fs : FS) (p : List String) : FS :=
  { fs with dirs := fun d => fs.dirs d || d.isPrefixOf p.dropLast }

/-- Model of `path.write_text(content)`: the file now holds `content` and is
readable. -/
def writeFile (fs : FS) (p : List String) (content : String) : FS :=
  { fs with files := fun q => if q = p then some ⟨content, true⟩ else fs.files q }

/-- Translation of `write_if_changed` (source lines 815–828): if the file
exists, try to read it and return `False` when the old text equals the new
one; a read error only logs a warning; otherwise create the parent
directories, write, and return `True`. -/
def write_if_changed (fs : FS) (p : List String) (content : String) :
    Bool × FS × List EmitMsg :=
  match fs.files p with
  | some st =>
    if st.readOk then
      if st.content = content then
        (false, fs, [EmitMsg.unchangedMsg p])
      else
        (true, writeFile (mkdirParents fs p) p content, [EmitMsg.wroteMsg p])
    else
      (true, writeFile (mkdirParents fs p) p content,
        [EmitMsg.readWarnMsg p, EmitMsg.wroteMsg p])
  | none => (true, writeFile (mkdirParents fs p) p content, [EmitMsg.wroteMsg p])

/-- One generation run at the emitter level: each output file is pushed
through `write_if_changed`, and the writes are tallied (`files_written` in
`main`). -/
def runEmit (fs : FS) : List (List String × String) → Nat × FS
  | [] => (0, fs)
  | (p, c) :: rest =>
    let r := write_if_changed fs p c
    let k := runEmit r.2.1 rest
    ((if r.1 then 1 else 0) + k.1, k.2)

/-! ## Registrant data model and the run pipeline (`main`) -/

/-- A registrant record as loaded from `registrants.json`.  Each JSON field
the generator reads becomes an optional string (absent key = `none`);
`revoked` and `is_placeholder` are the two boolean flags. -/
structure Registrant where
  registration_id : Option String := none
  name : Option String := none
  roll : Option String := none
  gender : Option String := none
  registration_date : Option String := none
  photo : Option String := none
  revoked : Bool := false
  is_placeholder : Bool := false
  referred_by : Option String := none
deriving DecidableEq, Repr

/-- Overwriting insertion into a string-keyed dictionary. -/
def dictInsert (d : String → Option Registrant) (k : String) (r : Registrant) :
    String → Option Registrant :=
  fun q => if q = k then some r else d q

/-- One pass of `_build_indexes` for a single key extractor: `sel` returns
the dictionary key for a record (or `none` when the record is not indexed),
and later records overwrite earlier ones, as Python dict assignment does. -/
def dictFold (sel : Registrant → Option String) :
    List Registrant → (String → Option Registrant) → String → Option Registrant
  | [], d => d
  | r :: rest, d =>
    dictFold sel rest
      (match sel r with
       | some k => dictInsert d k r
       | none => d)

/-- Key extractor for `by_id`: index under `registration_id` when truthy. -/
def selId (r : Registrant) : Option String :=
  match r.registration_id with
  | some rid => if rid = "" then none else some rid
  | none => none

/-- Key extractor for `by_roll`: index under `roll` when truthy. -/
def selRoll (r : Registrant) : Option String :=
  match r.roll with
  | some rl => if rl = "" then none else some rl
  | none => none

/-- Key extractor for `by_name`: a truthy `name` is indexed under its
stripped, lowered form. -/
def selName (r : Registrant) : Option String :=
  match r.name with
  | some nm => if nm = "" then none else some (pyLower (pyStrip nm))
  | none => none

/-- Translation of `_build_indexes` (source lines 831–845): one forward pass
filling `by_id`, `by_roll` and `by_name`. -/
def build_indexes (regs : List Registrant) :
    (String → Option Registrant) × (String → Option Registrant) ×
      (String → Option Registrant) :=
  (dictFold selId regs (fun _ => none),
   dictFold selRoll regs (fun _ => none),
   dictFold selName regs (fun _ => none))

/-- Translation of `_resolve_referer` (source lines 847–861): falsy input is
unresolved; otherwise the stripped value is looked up as a registration id,
then as a roll, then (lowered) as a name. -/
def resolve_referer (ref_value : Option String)
    (by_id by_roll by_name : String → Option Registrant) : Option Registrant :=
  match ref_value with
  | none => none
  | some v =>
    if v = "" then none
    else
      let t := pyStrip v
      match by_id t with
      | some r => some r
      | none =>
        match by_roll t with
        | some r => some r
        | none => by_name (pyLower t)

/-- The linked "Referred By" block of `_build_ref_section` (the f-string at
source lines 871–876). -/
def refLinkHtml (href label : String) : String :=
  "\n                <div style=\"display: flex; justify-content: space-between; align-items: center;\">\n                    <span style=\"color: #6b7280; font-weight: 500;\">Referred By</span>\n                    <a href=\"" ++
    href ++ "\" style=\"color: #16a34a; text-decoration: none; font-weight: 600;\">" ++
    label ++ "</a>\n                </div>\n        "

/-- The unresolved "Referred By" fallback block of `_build_ref_section` (the
f-string at source lines 879–884): the raw text in a plain span, unlinked. -/
def refSpanHtml (t : String) : String :=
  "\n                <div style=\"display: flex; justify-content: space-between; align-items: center;\">\n                    <span style=\"color: #6b7280; font-weight: 500;\">Referred By</span>\n                    <span style=\"color: #1f2937; font-weight: 600;\">" ++
    t ++ "</span>\n                </div>\n    "

/-- Translation of `_build_ref_section` (source lines 863–884). -/
def build_ref_section (entry : Registrant)
    (by_id by_roll by_name : String → Option Registrant)
    (id_to_file : String → Option String) : String :=
  match entry.referred_by with
  | none => ""
  | some rv =>
    if rv = "" then ""
    else
      match resolve_referer (some rv) by_id by_roll by_name with
      | some referer =>
        let href := match referer.registration_id with
          | some rid => (id_to_file rid).getD "#"
          | none => "#"
        let label := match referer.name with
          | some nm => nm
          | none => rv
        refLinkHtml href label
      | none => refSpanHtml rv

/-! ## Placeholder injection, filtering and the run pipeline -/

/-- The configured always-present ids (source line 42). -/
def PLACEHOLDER_IDS : List String :=
  ["SC-B-0001", "SC-G-0001", "AR-B-0001", "AR-G-0001", "CO-B-0001", "CO-G-0001"]

/-- The synthetic registrant appended for a missing placeholder id (source
lines 971–981). -/
def placeholderEntry (pid : String) : Registrant :=
  { registration_id := some pid,
    name := some "Not Yet Registered",
    roll := some "N/A",
    gender := some "N/A",
    registration_date := some "N/A",
    photo := some "https://chayannito26.com/college-students/images/placeholder.jpg",
    revoked := false,
    referred_by := some "",
    is_placeholder := true }

/-- Translation of the placeholder-injection loop (source lines 967–981):
`existing_ids` collects the `registration_id` values of records that carry
the key, and each configured id not among them appends one synthetic
entry. -/
def addPlaceholders (regs : List Registrant) : List Registrant :=
  let existing := regs.filterMap (fun r => r.registration_id)
  regs ++ (PLACEHOLDER_IDS.filter (fun pid => !(existing.contains pid))).map placeholderEntry

/-- The `--limit` branch of `_filter_registrants`: a positive integer limit
keeps the first `limit` records. -/
def filterLimit (regs : List Registrant) (limit : Option Int) : List Registrant :=
  match limit with
  | some n => if 0 < n then regs.take n.toNat else regs
  | none => regs

/-- Translation of `_filter_registrants` (source lines 927–933): a truthy
`ids` collection wins over `limit`; the wanted set holds the stripped forms
of the truthy requested ids. -/
def filter_registrants (regs : List Registrant) (ids : Option (List String))
    (limit : Option Int) : List Registrant :=
  match ids with
  | some l =>
    if l.isEmpty then filterLimit regs limit
    else
      let wanted := (l.filter (fun i => i ≠ "" && pyStrip i ≠ "")).map pyStrip
      regs.filter (fun r =>
        match r.registration_id with
        | some v => wanted.contains v
        | none => false)
  | none => filterLimit regs limit

/-- The `id_to_file` mapping built in `main` (source lines 992–996): each
truthy `registration_id` maps to its codec filename with `.html`. -/
def buildIdToFile (regs : List Registrant) : String → Option String :=
  regs.foldl
    (fun acc r =>
      let reg_id := getS r.registration_id
      if reg_id = "" then acc
      else fun q => if q = reg_id then some (idToFile reg_id) else acc q)
    (fun _ => none)

/-- The per-registrant page loop (source lines 1008–1065), keeping the
originating record with each emitted file.  Records whose `registration_id`
is falsy are skipped with a warning and produce no file.  Template rendering
and meta-image generation are the external collaborators of the spec, so the
page content is produced by the supplied `render` function. -/
def pageOutputsT (render : Registrant → String) (regs : List Registrant) :
    List (Registrant × String × String) :=
  regs.filterMap (fun r =>
    let reg_id := getS r.registration_id
    if reg_id = "" then none
    else some (r, idToFile reg_id, render r))

/-- Number of "Skipping entry without registration_id" warnings printed by
the page loop (source lines 1011–1013): one per skipped record. -/
def skipWarnings (regs : List Registrant) : Nat :=
  (regs.filter (fun r => getS r.registration_id = "")).length

/-- Python `str(value)` on an optional string: `None` prints as "None"
(source line 1082 interpolates `referer.get("name")` without a default). -/
def pyStrOfOpt : Option String → String
  | some s => s
  | none => "None"

/-- The link/referral-cell loop preceding the master list (source lines
1067–1087). -/
def linksAndRefCells (regs : List Registrant)
    (by_id by_roll by_name : String → Option Registrant)
    (id_to_file : String → Option String) : List (String × String) :=
  regs.map (fun entry =>
    let reg_id := getS entry.registration_id
    if reg_id = "" then ("#", "—")
    else
      let filename := (id_to_file reg_id).getD "#"
      let referer := match entry.referred_by with
        | some rv =>
          if rv = "" then none
          else resolve_referer (some rv) by_id by_roll by_name
        | none => none
      match referer with
      | some referer =>
        let ref_link := match referer.registration_id with
          | some rid => (id_to_file rid).getD "#"
          | none => "#"
        (filename,
          "<a href=\"" ++ ref_link ++ "\">" ++ pyStrOfOpt referer.name ++ "</a>")
      | none =>
        match entry.referred_by with
        | some rv =>
          if rv ≠ "" && pyStrip rv ≠ "" then
            (filename,
              "<span style=\"color: #1f2937; font-weight: 600;\">" ++ pyStrip rv ++ "</span>")
          else (filename, "—")
        | none => (filename, "—"))

/-- Python `reg[key]` on an optional field: raises `KeyError` when the key
is absent. -/
def getK (o : Option String) (key : String) : Except String String :=
  match o with
  | some v => Except.ok v
  | none => Except.error ("KeyError: " ++ key)

/-- The row f-string of `render_master_list` (source lines 431–441). -/
def rowHtml (rid nm rl dt link ref_cell : String) : String :=
  "\n        <tr>\n            <td>\n                <div class=\"reg-id-main\">" ++ rid ++
    "</div>\n                <div class=\"name-secondary\"><a href=\"" ++ link ++ "\">" ++ nm ++
    "</a></div>\n            </td>\n            <td class=\"roll-cell\" data-full-roll=\"" ++ rl ++
    "\">" ++ rl ++ "</td>\n            <td>" ++ dt ++
    "</td>\n            <td class=\"desktop-only\">" ++ ref_cell ++
    "</td>\n        </tr>\n        "

/-- One master-list row (source lines 430–441): the bracket accesses
`reg['registration_id']`, `reg['name']`, `reg['roll']`,
`reg['registration_date']` raise `KeyError` on an absent key, in order of
appearance in the f-string. -/
def masterRow (reg : Registrant) (link ref_cell : String) : Except String String := do
  let rid ← getK reg.registration_id "registration_id"
  let nm ← getK reg.name "name"
  let rl ← getK reg.roll "roll"
  let dt ← getK reg.registration_date "registration_date"
  Except.ok (rowHtml rid nm rl dt link ref_cell)

/-- The row loop of `render_master_list` over the zipped registrants, links
and referral cells. -/
def masterRowsGo : List (Registrant × String × String) → Except String (List String)
  | [] => Except.ok []
  | (r, l, rc) :: rest => do
    let row ← masterRow r l rc
    let rows ← masterRowsGo rest
    Except.ok (row :: rows)

/-- Result of a successful generation run: the emitted per-registrant pages
(with their source record and filename), the count of skipped records, the
registrants shown in the master list, and the master-list rows. -/
structure RunResult where
  pages : List (Registrant × String × String)
  skips : Nat
  masterRegs : List Registrant
  masterRows : List String
deriving DecidableEq, Repr

/-- Translation of the generation phase of `main` (source lines 967–1094):
placeholder injection, filtering, the `id_to_file` map, index building, the
page loop, the link/ref-cell loop, the placeholder filter for the master
list, and the master rows.  A `KeyError` anywhere surfaces as
`Except.error`. -/
def generateRun (render : Registrant → String) (input : List Registrant)
    (ids : Option (List String)) (limit : Option Int) : Except String RunResult :=
  let allRegs := addPlaceholders input
  let registrants := filter_registrants allRegs ids limit
  let id_to_file := buildIdToFile registrants
  let ix := build_indexes registrants
  let pages := pageOutputsT render registrants
  let lrc := linksAndRefCells registrants ix.1 ix.2.1 ix.2.2 id_to_file
  let finalTriples := ((List.zip registrants lrc).filter
      (fun x => !x.1.is_placeholder)).map (fun x => (x.1, x.2.1, x.2.2))
  match masterRowsGo finalTriples with
  | Except.error e => Except.error e
  | Except.ok rows =>
    Except.ok
      { pages := pages,
        skips := skipWarnings registrants,
        masterRegs := finalTriples.map (fun x => x.1),
        masterRows := rows }

/-- Outcome of the input-validation phase of `main` (source lines 956–962):
a missing `registrants.json` or `template.html` causes a plain `return`. -/
inductive MainOutcome where
  | missingInput (which : String)
  | proceeded
deriving DecidableEq, Repr

/-- Translation of the input checks of `main` (source lines 956–962). -/
def checkInputs (regJsonPresent templatePresent : Bool) : MainOutcome :=
  if !regJsonPresent then MainOutcome.missingInput "registrants.json"
  else if !templatePresent then MainOutcome.missingInput "template.html"
  else MainOutcome.proceeded

/-- Process exit status of a run of the script: `main` never calls
`sys.exit` and raises nothing on missing inputs — it returns normally in
both branches, so the interpreter exits with status 0 either way. -/
def mainExitCode (regJsonPresent templatePresent : Bool) : Nat :=
  match checkInputs regJsonPresent templatePresent with
  | MainOutcome.missingInput _ => 0
  | MainOutcome.proceeded => 0

/-- Whether the generation phase is reached (no outputs are produced when
the input check fails). -/
def generationReached (regJsonPresent templatePresent : Bool) : Bool :=
  match checkInputs regJsonPresent templatePresent with
  | MainOutcome.missingInput _ => false
  | MainOutcome.proceeded => true

/-! ## Concrete fixtures used by witnesses and counterexamples -/

/-- Fixture A of the spec's referral test case: holds roll "1001". -/
def regA : Registrant :=
  { registration_id := some "SC-B-0001", roll := some "1001", name := some "Alice" }

/-- Fixture B of the spec's referral test case: named "1001". -/
def regB : Registrant :=
  { registration_id := some "SC-B-0002", name := some "1001" }

/-- Fixture C of the spec's referral test case: referred by "1001". -/
def regC : Registrant :=
  { registration_id := some "SC-B-0003", referred_by := some "1001" }

/-- A registrant record that lacks the `registration_id` key entirely. -/
def regNoId : Registrant :=
  { name := some "X", roll := some "1", registration_date := some "2025-01-01" }

/-- An input record flagged as placeholder but lacking a registration id. -/
def regPlaceholderNoId : Registrant :=
  { name := some "P", is_placeholder := true }

/-! ## Helper lemmas about characters and the codec stages -/

theorem char_toNat_lt (c : Char) : c.toNat < 1114112 := by
  have h := c.valid
  rcases h with h | ⟨_, h2⟩
  · have := UInt32.toNat_lt_of_lt (n := c.val) (m := 0xd800) (by decide) h
    simp [Char.toNat]
    omega
  · exact UInt32.toNat_lt_of_lt (n := c.val) (m := 0x110000) (by decide) h2

theorem char_toNat_ofNat_valid {m : Nat} (h : m < 55296) : (Char.ofNat m).toNat = m := by
  have hv : m.isValidChar := Or.inl h
  rw [Char.ofNat, dif_pos hv]
  rfl

theorem rot13Char_eq_spec (c : Char) : rot13Char c = caesarRot13Spec c := by
  simp only [rot13Char, caesarRot13Spec]
  by_cases hl : 97 ≤ c.toNat ∧ c.toNat ≤ 122
  · have hu : ¬(65 ≤ c.toNat ∧ c.toNat ≤ 90) := by omega
    rw [if_pos hl, if_neg hu, if_pos hl]
    by_cases hm : c.toNat ≤ 109
    · rw [if_pos hm]; congr 1; omega
    · rw [if_neg hm]; congr 1; omega
  · by_cases hu : 65 ≤ c.toNat ∧ c.toNat ≤ 90
    · rw [if_pos hu, if_neg hl, if_pos hu]
      by_cases hm : c.toNat ≤ 77
      · rw [if_pos hm]; congr 1; omega
      · rw [if_neg hm]; congr 1; omega
    · rw [if_neg hl, if_neg hu, if_neg hu, if_neg hl]

theorem rot13Char_fun_eq : rot13Char = caesarRot13Spec := funext rot13Char_eq_spec

theorem rot13Char_invol (c : Char) : rot13Char (rot13Char c) = c := by
  simp only [rot13Char]
  by_cases hl : 97 ≤ c.toNat ∧ c.toNat ≤ 122
  · rw [if_pos hl]
    by_cases hm : c.toNat ≤ 109
    · rw [if_pos hm]
      have ht : (Char.ofNat (c.toNat + 13)).toNat = c.toNat + 13 :=
        char_toNat_ofNat_valid (by omega)
      rw [ht, if_pos (by omega : 97 ≤ c.toNat + 13 ∧ c.toNat + 13 ≤ 122),
        if_neg (by omega : ¬(c.toNat + 13 ≤ 109)),
        show c.toNat + 13 - 13 = c.toNat from by omega, Char.ofNat_toNat]
    · rw [if_neg hm]
      have ht : (Char.ofNat (c.toNat - 13)).toNat = c.toNat - 13 :=
        char_toNat_ofNat_valid (by omega)
      rw [ht, if_pos (by omega : 97 ≤ c.toNat - 13 ∧ c.toNat - 13 ≤ 122),
        if_pos (by omega : c.toNat - 13 ≤ 109),
        show c.toNat - 13 + 13 = c.toNat from by omega, Char.ofNat_toNat]
  · by_cases hu : 65 ≤ c.toNat ∧ c.toNat ≤ 90
    · rw [if_neg hl, if_pos hu]
      by_cases hm : c.toNat ≤ 77
      · rw [if_pos hm]
        have ht : (Char.ofNat (c.toNat + 13)).toNat = c.toNat + 13 :=
          char_toNat_ofNat_valid (by omega)
        rw [ht, if_neg (by omega : ¬(97 ≤ c.toNat + 13 ∧ c.toNat + 13 ≤ 122)),
          if_pos (by omega : 65 ≤ c.toNat + 13 ∧ c.toNat + 13 ≤ 90),
          if_neg (by omega : ¬(c.toNat + 13 ≤ 77)),
          show c.toNat + 13 - 13 = c.toNat from by omega, Char.ofNat_toNat]
      · rw [if_neg hm]
        have ht : (Char.ofNat (c.toNat - 13)).toNat = c.toNat - 13 :=
          char_toNat_ofNat_valid (by omega)
        rw [ht, if_neg (by omega : ¬(97 ≤ c.toNat - 13 ∧ c.toNat - 13 ≤ 122)),
          if_pos (by omega : 65 ≤ c.toNat - 13 ∧ c.toNat - 13 ≤ 90),
          if_pos (by omega : c.toNat - 13 ≤ 77),
          show c.toNat - 13 + 13 = c.toNat from by omega, Char.ofNat_toNat]
    · rw [if_neg hl, if_neg hu, if_neg hl, if_neg hu]

theorem rot13_invol (l : List Char) : rot13 (rot13 l) = l := by
  simp [rot13, List.map_map, Function.comp_def, rot13Char_invol]

theorem b64UrlInv_b64UrlChar : ∀ n, n < 64 → b64UrlInv (b64UrlChar n) = n := by decide

theorem b64UrlChar_ne_eq : ∀ n, n < 64 → ((b64UrlChar n == '=') = false) := by decide

theorem dropWhile_eq_self_of {l : List Char} (h : ∀ c ∈ l, (c == '=') = false) :
    l.dropWhile (· == '=') = l := by
  cases l with
  | nil => rfl
  | cons c t => simp [List.dropWhile, h c (List.mem_cons_self c t)]

theorem rstripEq_append (l1 l2 : List Char) (h : ∀ c ∈ l1, (c == '=') = false) :
    rstripEqList (l1 ++ l2) = l1 ++ rstripEqList l2 := by
  unfold rstripEqList
  rw [List.reverse_append, List.dropWhile_append]
  by_cases he : (List.dropWhile (fun x => x == '=') l2.reverse).isEmpty = true
  · rw [if_pos he]
    have h2 : List.dropWhile (fun x => x == '=') l2.reverse = [] := by
      simpa [List.isEmpty_iff] using he
    have h1 : List.dropWhile (fun x => x == '=') l1.reverse = l1.reverse :=
      dropWhile_eq_self_of (fun c hc => h c (List.mem_reverse.mp hc))
    rw [h1, h2, List.reverse_reverse]
    simp
  · rw [if_neg he, List.reverse_append, List.reverse_reverse]

theorem b64_roundtrip : ∀ l : List Nat, (∀ b ∈ l, b < 256) →
    b64UrlDecode (rstripEqList (b64UrlEncode l)) = some l
  | [] => fun _ => by simp [b64UrlEncode, rstripEqList, b64UrlDecode]
  | [b0] => fun h => by
    have hb0 : b0 < 256 := h b0 (by simp)
    have h1 : b0 / 4 < 64 := by omega
    have h2 : b0 % 4 * 16 < 64 := by omega
    have n1 := b64UrlChar_ne_eq _ h1
    have n2 := b64UrlChar_ne_eq _ h2
    have e1 := b64UrlInv_b64UrlChar _ h1
    have e2 := b64UrlInv_b64UrlChar _ h2
    simp [b64UrlEncode, rstripEqList, List.dropWhile, n1, n2, b64UrlDecode, e1, e2]
    omega
  | [b0, b1] => fun h => by
    have hb0 : b0 < 256 := h b0 (by simp)
    have hb1 : b1 < 256 := h b1 (by simp)
    have h1 : b0 / 4 < 64 := by omega
    have h2 : b0 % 4 * 16 + b1 / 16 < 64 := by omega
    have h3 : b1 % 16 * 4 < 64 := by omega
    have n1 := b64UrlChar_ne_eq _ h1
    have n2 := b64UrlChar_ne_eq _ h2
    have n3 := b64UrlChar_ne_eq _ h3
    have e1 := b64UrlInv_b64UrlChar _ h1
    have e2 := b64UrlInv_b64UrlChar _ h2
    have e3 := b64UrlInv_b64UrlChar _ h3
    simp [b64UrlEncode, rstripEqList, List.dropWhile, n1, n2, n3, b64UrlDecode, e1, e2, e3]
    constructor
    · omega
    · omega
  | b0 :: b1 :: b2 :: rest => fun h => by
    have hb0 : b0 < 256 := h b0 (by simp)
    have hb1 : b1 < 256 := h b1 (by simp)
    have hb2 : b2 < 256 := h b2 (by simp)
    have ih := b64_roundtrip rest (fun b hb => h b (by simp [hb]))
    have h1 : b0 / 4 < 64 := by omega
    have h2 : b0 % 4 * 16 + b1 / 16 < 64 := by omega
    have h3 : b1 % 16 * 4 + b2 / 64 < 64 := by omega
    have h4 : b2 % 64 < 64 := by omega
    have n1 := b64UrlChar_ne_eq _ h1
    have n2 := b64UrlChar_ne_eq _ h2
    have n3 := b64UrlChar_ne_eq _ h3
    have n4 := b64UrlChar_ne_eq _ h4
    have e1 := b64UrlInv_b64UrlChar _ h1
    have e2 := b64UrlInv_b64UrlChar _ h2
    have e3 := b64UrlInv_b64UrlChar _ h3
    have e4 := b64UrlInv_b64UrlChar _ h4
    have hsplit : b64UrlEncode (b0 :: b1 :: b2 :: rest) =
        [b64UrlChar (b0 / 4), b64UrlChar (b0 % 4 * 16 + b1 / 16),
          b64UrlChar (b1 % 16 * 4 + b2 / 64), b64UrlChar (b2 % 64)] ++
          b64UrlEncode rest := rfl
    rw [hsplit, rstripEq_append _ _ (by
      intro c hc
      simp at hc
      rcases hc with hc | hc | hc | hc <;> rw [hc]
      · exact n1
      · exact n2
      · exact n3
      · exact n4)]
    simp only [List.cons_append, List.nil_append]
    simp [b64UrlDecode, ih, e1, e2, e3, e4]
    refine ⟨by omega, by omega, by omega⟩

theorem utf8EncodeChar_byte_lt (c : Char) : ∀ b ∈ utf8EncodeChar c, b < 256 := by
  have h := char_toNat_lt c
  unfold utf8EncodeChar
  split_ifs with h1 h2 h3 <;> intro b hb <;> simp at hb <;> omega

theorem utf8Encode_byte_lt (s : String) : ∀ b ∈ utf8Encode s, b < 256 := by
  intro b hb
  unfold utf8Encode at hb
  rcases List.mem_flatMap.mp hb with ⟨c, _, hbc⟩
  exact utf8EncodeChar_byte_lt c b hbc

theorem utf8DecodeOne_enc (c : Char) (r : List Nat) :
    utf8DecodeOne (utf8EncodeChar c ++ r) = some (c, r) := by
  have h := char_toNat_lt c
  unfold utf8EncodeChar
  by_cases h1 : c.toNat < 128
  · rw [if_pos h1]
    show utf8DecodeOne (c.toNat :: r) = _
    simp [utf8DecodeOne.eq_def, h1, Char.ofNat_toNat]
  · rw [if_neg h1]
    by_cases h2 : c.toNat < 2048
    · rw [if_pos h2]
      show utf8DecodeOne ((192 + c.toNat / 64) :: (128 + c.toNat % 64) :: r) = _
      have c1 : ¬(192 + c.toNat / 64 < 128) := by omega
      have c2 : ¬(192 + c.toNat / 64 < 192) := by omega
      have c3 : 192 + c.toNat / 64 < 224 := by omega
      have c4 : 128 ≤ 128 + c.toNat % 64 ∧ 128 + c.toNat % 64 < 192 := by omega
      simp [utf8DecodeOne.eq_def, c1, c2, c3, c4]
      rw [show c.toNat / 64 * 64 + c.toNat % 64 = c.toNat from by omega, Char.ofNat_toNat]
    · rw [if_neg h2]
      by_cases h3 : c.toNat < 65536
      · rw [if_pos h3]
        show utf8DecodeOne ((224 + c.toNat / 4096) :: (128 + c.toNat / 64 % 64) ::
          (128 + c.toNat % 64) :: r) = _
        have c1 : ¬(224 + c.toNat / 4096 < 128) := by omega
        have c2 : ¬(224 + c.toNat / 4096 < 192) := by omega
        have c3 : ¬(224 + c.toNat / 4096 < 224) := by omega
        have c4 : 224 + c.toNat / 4096 < 240 := by omega
        have c5 : 128 ≤ 128 + c.toNat / 64 % 64 ∧ 128 + c.toNat / 64 % 64 < 192 := by omega
        have c6 : 128 ≤ 128 + c.toNat % 64 ∧ 128 + c.toNat % 64 < 192 := by omega
        simp [utf8DecodeOne.eq_def, c1, c2, c3, c4, c5, c6]
        rw [show c.toNat / 4096 * 4096 + c.toNat / 64 % 64 * 64 + c.toNat % 64 = c.toNat from
          by omega, Char.ofNat_toNat]
      · rw [if_neg h3]
        show utf8DecodeOne ((240 + c.toNat / 262144) :: (128 + c.toNat / 4096 % 64) ::
          (128 + c.toNat / 64 % 64) :: (128 + c.toNat % 64) :: r) = _
        have c1 : ¬(240 + c.toNat / 262144 < 128) := by omega
        have c2 : ¬(240 + c.toNat / 262144 < 192) := by omega
        have c3 : ¬(240 + c.toNat / 262144 < 224) := by omega
        have c4 : ¬(240 + c.toNat / 262144 < 240) := by omega
        have c5 : 240 + c.toNat / 262144 < 248 := by omega
        have c6 : 128 ≤ 128 + c.toNat / 4096 % 64 ∧ 128 + c.toNat / 4096 % 64 < 192 := by omega
        have c7 : 128 ≤ 128 + c.toNat / 64 % 64 ∧ 128 + c.toNat / 64 % 64 < 192 := by omega
        have c8 : 128 ≤ 128 + c.toNat % 64 ∧ 128 + c.toNat % 64 < 192 := by omega
        simp [utf8DecodeOne.eq_def, c1, c2, c3, c4, c5, c6, c7, c8]
        rw [show c.toNat / 262144 * 262144 + c.toNat / 4096 % 64 * 4096 +
          c.toNat / 64 % 64 * 64 + c.toNat % 64 = c.toNat from by omega, Char.ofNat_toNat]

theorem utf8EncodeChar_ne_nil (c : Char) : utf8EncodeChar c ≠ [] := by
  unfold utf8EncodeChar
  split_ifs <;> simp

theorem utf8DecodeLoop_enc : ∀ (l : List Char) (fuel : Nat),
    (l.flatMap utf8EncodeChar).length ≤ fuel →
    utf8DecodeLoop fuel (l.flatMap utf8EncodeChar) = some l := by
  intro l
  induction l with
  | nil => intro fuel _; cases fuel <;> rfl
  | cons c t ih =>
    intro fuel hf
    rw [List.flatMap_cons] at hf ⊢
    have hne : utf8EncodeChar c ≠ [] := utf8EncodeChar_ne_nil c
    obtain ⟨b, bs, hbs⟩ : ∃ b bs, utf8EncodeChar c = b :: bs := by
      cases hcc : utf8EncodeChar c with
      | nil => exact absurd hcc hne
      | cons x xs => exact ⟨x, xs, rfl⟩
    have hlen : (utf8EncodeChar c ++ t.flatMap utf8EncodeChar).length ≥ 1 := by
      rw [hbs]; simp
    obtain ⟨f, rfl⟩ : ∃ f, fuel = f + 1 := by
      cases fuel with
      | zero =>
        exfalso
        rw [hbs] at hf
        simp at hf
      | succ f => exact ⟨f, rfl⟩
    have harr : utf8EncodeChar c ++ t.flatMap utf8EncodeChar =
        b :: (bs ++ t.flatMap utf8EncodeChar) := by rw [hbs]; rfl
    rw [harr, utf8DecodeLoop]
    rw [show b :: (bs ++ t.flatMap utf8EncodeChar) =
      utf8EncodeChar c ++ t.flatMap utf8EncodeChar from by rw [hbs]; rfl]
    rw [utf8DecodeOne_enc]
    show Option.map (fun t => c :: t) (utf8DecodeLoop f (t.flatMap utf8EncodeChar)) =
      some (c :: t)
    rw [ih f (by
      rw [hbs] at hf
      simp only [List.length_append, List.length_cons] at hf
      omega)]
    rfl

theorem utf8_roundtrip (l : List Char) : utf8Decode (l.flatMap utf8EncodeChar) = some l :=
  utf8DecodeLoop_enc l _ (Nat.le_refl _)

theorem decodeFilename_encode (s : String) : decodeFilename (id_to_filename s) = some s := by
  unfold decodeFilename id_to_filename
  have hdata : (String.mk (rot13 (rstripEqList (b64UrlEncode (utf8Encode s)))).reverse).data =
      (rot13 (rstripEqList (b64UrlEncode (utf8Encode s)))).reverse := rfl
  rw [hdata, List.reverse_reverse, rot13_invol,
    b64_roundtrip _ (utf8Encode_byte_lt s)]
  show (utf8Decode (utf8Encode s)).map String.mk = some s
  unfold utf8Encode
  rw [utf8_roundtrip]
  show some (String.mk s.data) = some s
  cases s
  rfl

/-- C1: `id_to_filename` is the character-reversal of ROT13 applied to the
unpadded URL-safe Base64 encoding of the UTF-8 bytes of the id, where the
ROT13 step agrees with the spec's Caesar rotation (letters rotate by 13
wrapping within each case, non-letters pass through); the call sites append
`.html` to this token to form the per-registrant filename. -/
theorem filename_codec_matches_spec (i : String) :
    id_to_filename i = specFilename i ∧ idToFile i = id_to_filename i ++ ".html" := by
  constructor
  · unfold id_to_filename specFilename rot13
    rw [rot13Char_fun_eq]
  · rfl

/-- C4: the filename codec is injective (distinct ids yield distinct
tokens) and deterministic (repeated invocations agree). -/
theorem filename_codec_injective_and_stable :
    (∀ a b : String, id_to_filename a = id_to_filename b → a = b) ∧
    (∀ i : String, id_to_filename i = id_to_filename i) := by
  refine ⟨fun a b hab => ?_, fun _ => rfl⟩
  have ha := decodeFilename_encode a
  have hb := decodeFilename_encode b
  rw [hab, hb] at ha
  exact (Option.some_inj.mp ha).symm

/-- Witness for C4 at concrete ids. -/
theorem filename_codec_injective_and_stable_witness :
    "SC-B-0001" = "SC-B-0001" ∧ id_to_filename "AR-G-0001" = id_to_filename "AR-G-0001" :=
  ⟨filename_codec_injective_and_stable.1 "SC-B-0001" "SC-B-0001" rfl,
   filename_codec_injective_and_stable.2 "AR-G-0001"⟩

/-! ## Emitter lemmas -/

theorem wic_files_at (fs : FS) (p : List String) (c : String) :
    ((write_if_changed fs p c).2.1).files p = some ⟨c, true⟩ := by
  unfold write_if_changed
  cases hm : fs.files p with
  | none => simp [writeFile, mkdirParents]
  | some st =>
    by_cases hro : st.readOk
    · by_cases heq : st.content = c
      · cases st with
        | mk co ro =>
          simp only at hro heq
          subst heq
          simp [hro, hm]
      · simp [hro, heq, writeFile, mkdirParents]
    · simp [hro, writeFile, mkdirParents]

theorem wic_files_other (fs : FS) (p q : List String) (c : String) (hq : q ≠ p) :
    ((write_if_changed fs p c).2.1).files q = fs.files q := by
  unfold write_if_changed
  cases hm : fs.files p with
  | none => simp [writeFile, mkdirParents, hq]
  | some st =>
    by_cases hro : st.readOk
    · by_cases heq : st.content = c
      · simp [hro, heq]
      · simp [hro, heq, writeFile, mkdirParents, hq]
    · simp [hro, writeFile, mkdirParents, hq]

theorem wic_unchanged_of (fs : FS) (p : List String) (c : String)
    (h : fs.files p = some ⟨c, true⟩) :
    write_if_changed fs p c = (false, fs, [EmitMsg.unchangedMsg p]) := by
  simp [write_if_changed, h]

/-- C2: `write_if_changed` performs no write and returns `False` when the
destination holds byte-identical content; otherwise (absent file or
different content) it creates the ancestor directories, writes, and returns
`True`; in either case the on-disk content afterwards equals the new
content. -/
theorem write_if_changed_contract (fs : FS) (p : List String) (c : String) :
    (∀ st, fs.files p = some st → st.readOk = true → st.content = c →
      write_if_changed fs p c = (false, fs, [EmitMsg.unchangedMsg p])) ∧
    ((fs.files p = none ∨ ∃ st, fs.files p = some st ∧ st.readOk = true ∧ st.content ≠ c) →
      (write_if_changed fs p c).1 = true ∧
      EmitMsg.wroteMsg p ∈ (write_if_changed fs p c).2.2 ∧
      ∀ d, d.isPrefixOf p.dropLast = true → ((write_if_changed fs p c).2.1).dirs d = true) ∧
    ((write_if_changed fs p c).2.1).files p = some ⟨c, true⟩ := by
  refine ⟨?_, ?_, wic_files_at fs p c⟩
  · intro st hm hro heq
    cases st with
    | mk co ro =>
      simp only at hro heq
      subst heq
      subst hro
      exact wic_unchanged_of fs p _ hm
  · rintro (hm | ⟨st, hm, hro, heq⟩)
    · refine ⟨?_, ?_, ?_⟩
      · simp [write_if_changed, hm]
      · simp [write_if_changed, hm]
      · intro d hd
        simp [write_if_changed, hm, writeFile, mkdirParents]
        exact Or.inr (by simpa using hd)
    · refine ⟨?_, ?_, ?_⟩
      · simp [write_if_changed, hm, hro, heq]
      · simp [write_if_changed, hm, hro, heq]
      · intro d hd
        simp [write_if_changed, hm, hro, heq, writeFile, mkdirParents]
        exact Or.inr (by simpa using hd)

/-- Witness for C2: an up-to-date file is left alone and reported
unchanged; a missing file is written, reported written, and its parent
directory exists afterwards. -/
theorem write_if_changed_contract_witness :
    write_if_changed
        ⟨fun q => if q = ["dist", "a.html"] then some ⟨"x", true⟩ else none, fun _ => false⟩
        ["dist", "a.html"] "x" =
      (false,
        ⟨fun q => if q = ["dist", "a.html"] then some ⟨"x", true⟩ else none, fun _ => false⟩,
        [EmitMsg.unchangedMsg ["dist", "a.html"]]) ∧
    (write_if_changed ⟨fun _ => none, fun _ => false⟩ ["dist", "a.html"] "x").1 = true ∧
    EmitMsg.wroteMsg ["dist", "a.html"] ∈
      (write_if_changed ⟨fun _ => none, fun _ => false⟩ ["dist", "a.html"] "x").2.2 ∧
    ((write_if_changed ⟨fun _ => none, fun _ => false⟩ ["dist", "a.html"] "x").2.1).dirs
      ["dist"] = true ∧
    ((write_if_changed ⟨fun _ => none, fun _ => false⟩ ["dist", "a.html"] "x").2.1).files
      ["dist", "a.html"] = some ⟨"x", true⟩ := by
  have h1 := (write_if_changed_contract
    ⟨fun q => if q = ["dist", "a.html"] then some ⟨"x", true⟩ else none, fun _ => false⟩
    ["dist", "a.html"] "x").1 ⟨"x", true⟩ (by simp) rfl rfl
  have h2 := (write_if_changed_contract ⟨fun _ => none, fun _ => false⟩
    ["dist", "a.html"] "x").2.1 (Or.inl rfl)
  have h3 := (write_if_changed_contract ⟨fun _ => none, fun _ => false⟩
    ["dist", "a.html"] "x").2.2
  exact ⟨h1, h2.1, h2.2.1, h2.2.2 ["dist"] (by decide), h3⟩

theorem runEmit_files_other (outs : List (List String × String)) :
    ∀ (fs : FS) (q : List String), q ∉ outs.map Prod.fst →
      ((runEmit fs outs).2).files q = fs.files q := by
  induction outs with
  | nil => intro fs q _; rfl
  | cons pc rest ih =>
    intro fs q hq
    simp only [List.map_cons, List.mem_cons] at hq
    push_neg at hq
    show ((runEmit (write_if_changed fs pc.1 pc.2).2.1 rest).2).files q = fs.files q
    rw [ih _ q hq.2, wic_files_other _ _ _ _ hq.1]

theorem runEmit_idem (outs : List (List String × String)) :
    ∀ fs : FS, (outs.map Prod.fst).Nodup →
      runEmit (runEmit fs outs).2 outs = (0, (runEmit fs outs).2) := by
  induction outs with
  | nil => intro fs _; rfl
  | cons pc rest ih =>
    intro fs hnd
    simp only [List.map_cons, List.nodup_cons] at hnd
    have hstable : ((runEmit (write_if_changed fs pc.1 pc.2).2.1 rest).2).files pc.1 =
        some ⟨pc.2, true⟩ := by
      rw [runEmit_files_other rest _ pc.1 hnd.1]
      exact wic_files_at fs pc.1 pc.2
    have hfirst := wic_unchanged_of _ pc.1 pc.2 hstable
    show runEmit (runEmit (write_if_changed fs pc.1 pc.2).2.1 rest).2 (pc :: rest) = _
    cases pc with
    | mk p c =>
      show (let r := write_if_changed (runEmit (write_if_changed fs p c).2.1 rest).2 p c
        let k := runEmit r.2.1 rest
        ((if r.1 then 1 else 0) + k.1, k.2)) = _
      rw [hfirst]
      simp only []
      rw [ih _ hnd.2]
      rfl

/-- C3: the emitter is idempotent — an immediate second `write_if_changed`
with the same path and content performs no write, returns `False` and
leaves the state unchanged; and a second full emission run over the same
outputs (distinct paths) writes zero files and leaves the directory
contents identical. -/
theorem emitter_idempotent :
    (∀ (fs : FS) (p : List String) (c : String),
      write_if_changed ((write_if_changed fs p c).2.1) p c =
        (false, (write_if_changed fs p c).2.1, [EmitMsg.unchangedMsg p])) ∧
    (∀ (fs : FS) (outs : List (List String × String)), (outs.map Prod.fst).Nodup →
      runEmit (runEmit fs outs).2 outs = (0, (runEmit fs outs).2)) :=
  ⟨fun fs p c => wic_unchanged_of _ p c (wic_files_at fs p c),
   fun fs outs h => runEmit_idem outs fs h⟩

/-- Witness for C3 on a concrete two-file run. -/
theorem emitter_idempotent_witness :
    write_if_changed
        ((write_if_changed ⟨fun _ => none, fun _ => false⟩ ["a.html"] "x").2.1) ["a.html"] "x" =
      (false, (write_if_changed ⟨fun _ => none, fun _ => false⟩ ["a.html"] "x").2.1,
        [EmitMsg.unchangedMsg ["a.html"]]) ∧
    runEmit (runEmit ⟨fun _ => none, fun _ => false⟩ [(["a.html"], "x"), (["b.html"], "y")]).2
        [(["a.html"], "x"), (["b.html"], "y")] =
      (0, (runEmit ⟨fun _ => none, fun _ => false⟩ [(["a.html"], "x"), (["b.html"], "y")]).2) :=
  ⟨emitter_idempotent.1 ⟨fun _ => none, fun _ => false⟩ ["a.html"] "x",
   emitter_idempotent.2 ⟨fun _ => none, fun _ => false⟩ [(["a.html"], "x"), (["b.html"], "y")]
     (by decide)⟩

/-- C5: when the destination exists but reading it fails, the emitter does
not abort — it surfaces a read warning, falls through to the write, and
returns `True`. -/
theorem write_if_changed_read_error (fs : FS) (p : List String) (c : String)
    (st : FileState) (hm : fs.files p = some st) (hro : st.readOk = false) :
    (write_if_changed fs p c).1 = true ∧
    EmitMsg.readWarnMsg p ∈ (write_if_changed fs p c).2.2 ∧
    ((write_if_changed fs p c).2.1).files p = some ⟨c, true⟩ := by
  refine ⟨?_, ?_, wic_files_at fs p c⟩ <;>
    simp [write_if_changed, hm, hro]

/-- Witness for C5 with a concrete unreadable file. -/
theorem write_if_changed_read_error_witness :
    (write_if_changed
        ⟨fun q => if q = ["a.html"] then some ⟨"old", false⟩ else none, fun _ => false⟩
        ["a.html"] "new").1 = true ∧
    EmitMsg.readWarnMsg ["a.html"] ∈
      (write_if_changed
        ⟨fun q => if q = ["a.html"] then some ⟨"old", false⟩ else none, fun _ => false⟩
        ["a.html"] "new").2.2 ∧
    ((write_if_changed
        ⟨fun q => if q = ["a.html"] then some ⟨"old", false⟩ else none, fun _ => false⟩
        ["a.html"] "new").2.1).files ["a.html"] = some ⟨"new", true⟩ :=
  write_if_changed_read_error _ ["a.html"] "new" ⟨"old", false⟩ (by simp) rfl

/-! ## Dictionary lemmas for referral resolution -/

theorem dictFold_some (sel : Registrant → Option String) (regs : List Registrant) :
    ∀ (d : String → Option Registrant) (k : String) (r : Registrant),
      dictFold sel regs d k = some r → (r ∈ regs ∧ sel r = some k) ∨ d k = some r := by
  induction regs with
  | nil => intro d k r h; exact Or.inr h
  | cons a t ih =>
    intro d k r h
    rw [dictFold] at h
    cases hsa : sel a with
    | none =>
      simp only [hsa] at h
      rcases ih _ k r h with ⟨hmem, hsel⟩ | hacc
      · exact Or.inl ⟨List.mem_cons_of_mem a hmem, hsel⟩
      · exact Or.inr hacc
    | some ka =>
      simp only [hsa] at h
      rcases ih _ k r h with ⟨hmem, hsel⟩ | hacc
      · exact Or.inl ⟨List.mem_cons_of_mem a hmem, hsel⟩
      · unfold dictInsert at hacc
        by_cases hk : k = ka
        · subst hk
          rw [if_pos rfl] at hacc
          have har : a = r := Option.some_inj.mp hacc
          subst har
          exact Or.inl ⟨List.mem_cons_self a t, hsa⟩
        · rw [if_neg hk] at hacc
          exact Or.inr hacc

theorem dictFold_isSome_acc (sel : Registrant → Option String) (regs : List Registrant) :
    ∀ (d : String → Option Registrant) (k : String),
      (d k).isSome → (dictFold sel regs d k).isSome := by
  induction regs with
  | nil => intro d k h; exact h
  | cons a t ih =>
    intro d k h
    rw [dictFold]
    cases hsa : sel a with
    | none =>
      simp only [hsa]
      exact ih _ k h
    | some ka =>
      simp only [hsa]
      apply ih
      unfold dictInsert
      by_cases hk : k = ka
      · rw [if_pos hk]; rfl
      · rw [if_neg hk]; exact h

theorem dictFold_isSome (sel : Registrant → Option String) (regs : List Registrant) :
    ∀ (d : String → Option Registrant) (k : String),
      (∃ r ∈ regs, sel r = some k) → (dictFold sel regs d k).isSome := by
  induction regs with
  | nil => intro d k h; simp at h
  | cons a t ih =>
    intro d k h
    rw [dictFold]
    by_cases hat : ∃ r ∈ t, sel r = some k
    · cases hsa : sel a with
      | none => simp only [hsa]; exact ih _ k hat
      | some ka => simp only [hsa]; exact ih _ k hat
    · have ha : sel a = some k := by
        rcases h with ⟨r, hr, hsel⟩
        rcases List.mem_cons.mp hr with rfl | hrt
        · exact hsel
        · exact absurd ⟨r, hrt, hsel⟩ hat
      simp only [ha]
      apply dictFold_isSome_acc
      unfold dictInsert
      rw [if_pos rfl]
      rfl

theorem dictFold_none_of (sel : Registrant → Option String) (regs : List Registrant) :
    ∀ (d : String → Option Registrant) (k : String),
      (∀ r ∈ regs, sel r ≠ some k) → dictFold sel regs d k = d k := by
  induction regs with
  | nil => intro d k _; rfl
  | cons a t ih =>
    intro d k h
    rw [dictFold]
    cases hsa : sel a with
    | none =>
      simp only [hsa]
      exact ih _ k (fun r hr => h r (List.mem_cons_of_mem a hr))
    | some ka =>
      simp only [hsa]
      rw [ih _ k (fun r hr => h r (List.mem_cons_of_mem a hr))]
      unfold dictInsert
      rw [if_neg (fun hk => h a (List.mem_cons_self a t) (by rw [hsa, hk]))]

theorem selId_eq_some (r : Registrant) (k : String) :
    selId r = some k ↔ r.registration_id = some k ∧ k ≠ "" := by
  cases hr : r.registration_id with
  | none => simp [selId, hr]
  | some rid =>
    by_cases h0 : rid = ""
    · subst h0
      simp [selId, hr]
      exact fun h => h.symm
    · simp [selId, hr, h0]
      intro h
      subst h
      exact h0

theorem selRoll_eq_some (r : Registrant) (k : String) :
    selRoll r = some k ↔ r.roll = some k ∧ k ≠ "" := by
  cases hr : r.roll with
  | none => simp [selRoll, hr]
  | some rl =>
    by_cases h0 : rl = ""
    · subst h0
      simp [selRoll, hr]
      exact fun h => h.symm
    · simp [selRoll, hr, h0]
      intro h
      subst h
      exact h0

theorem selName_eq_some (r : Registrant) (k : String) :
    selName r = some k ↔ ∃ nm, r.name = some nm ∧ nm ≠ "" ∧ pyLower (pyStrip nm) = k := by
  cases hr : r.name with
  | none => simp [selName, hr]
  | some nm =>
    by_cases h0 : nm = ""
    · subst h0
      simp [selName, hr]
    · simp [selName, hr, h0]

/-- C6: referral resolution tries, in order, exact id match on the trimmed
value, exact roll match, then case-insensitive trimmed name match; the first
match wins, and an unresolved value is rendered verbatim in a plain span
rather than as a link. -/
theorem referral_resolution_order (regs : List Registrant) (v : String)
    (entry : Registrant) (idf : String → Option String)
    (hv : v ≠ "") (hrb : entry.referred_by = some v) :
    ((pyStrip v ≠ "" ∧ ∃ r ∈ regs, r.registration_id = some (pyStrip v)) →
      ∃ rr, resolve_referer (some v) (build_indexes regs).1 (build_indexes regs).2.1
          (build_indexes regs).2.2 = some rr ∧
        rr ∈ regs ∧ rr.registration_id = some (pyStrip v)) ∧
    ((¬∃ r ∈ regs, r.registration_id = some (pyStrip v) ∧ pyStrip v ≠ "") →
      (pyStrip v ≠ "" ∧ ∃ r ∈ regs, r.roll = some (pyStrip v)) →
      ∃ rr, resolve_referer (some v) (build_indexes regs).1 (build_indexes regs).2.1
          (build_indexes regs).2.2 = some rr ∧
        rr ∈ regs ∧ rr.roll = some (pyStrip v)) ∧
    ((¬∃ r ∈ regs, r.registration_id = some (pyStrip v) ∧ pyStrip v ≠ "") →
      (¬∃ r ∈ regs, r.roll = some (pyStrip v) ∧ pyStrip v ≠ "") →
      (∃ r ∈ regs, ∃ nm, r.name = some nm ∧ nm ≠ "" ∧
        pyLower (pyStrip nm) = pyLower (pyStrip v)) →
      ∃ rr, resolve_referer (some v) (build_indexes regs).1 (build_indexes regs).2.1
          (build_indexes regs).2.2 = some rr ∧
        rr ∈ regs ∧ ∃ nm, rr.name = some nm ∧ nm ≠ "" ∧
          pyLower (pyStrip nm) = pyLower (pyStrip v)) ∧
    ((¬∃ r ∈ regs, r.registration_id = some (pyStrip v) ∧ pyStrip v ≠ "") →
      (¬∃ r ∈ regs, r.roll = some (pyStrip v) ∧ pyStrip v ≠ "") →
      (¬∃ r ∈ regs, ∃ nm, r.name = some nm ∧ nm ≠ "" ∧
        pyLower (pyStrip nm) = pyLower (pyStrip v)) →
      resolve_referer (some v) (build_indexes regs).1 (build_indexes regs).2.1
          (build_indexes regs).2.2 = none ∧
      build_ref_section entry (build_indexes regs).1 (build_indexes regs).2.1
          (build_indexes regs).2.2 idf = refSpanHtml v) := by
  have hres : resolve_referer (some v) (build_indexes regs).1 (build_indexes regs).2.1
      (build_indexes regs).2.2 =
      (match (build_indexes regs).1 (pyStrip v) with
       | some r => some r
       | none =>
         match (build_indexes regs).2.1 (pyStrip v) with
         | some r => some r
         | none => (build_indexes regs).2.2 (pyLower (pyStrip v))) := by
    simp only [resolve_referer]
    rw [if_neg hv]
  refine ⟨?_, ?_, ?_, ?_⟩
  · rintro ⟨ht, r, hr, hid⟩
    have hsome := dictFold_isSome selId regs (fun _ => none) (pyStrip v)
      ⟨r, hr, (selId_eq_some r _).mpr ⟨hid, ht⟩⟩
    obtain ⟨rr, hrr⟩ := Option.isSome_iff_exists.mp hsome
    have hprops := dictFold_some selId regs (fun _ => none) (pyStrip v) rr hrr
    rcases hprops with ⟨hmem, hsel⟩ | habs
    · refine ⟨rr, ?_, hmem, ((selId_eq_some rr _).mp hsel).1⟩
      rw [hres]
      show (match (build_indexes regs).1 (pyStrip v) with
        | some r => some r
        | none => _) = some rr
      rw [show (build_indexes regs).1 (pyStrip v) = some rr from hrr]
    · exact absurd habs (by simp)
  · intro hnoid ⟨ht, r, hr, hroll⟩
    have hidnone : (build_indexes regs).1 (pyStrip v) = none := by
      apply dictFold_none_of
      intro r' hr' hsel
      exact hnoid ⟨r', hr', ((selId_eq_some r' _).mp hsel).1,
        ((selId_eq_some r' _).mp hsel).2⟩
    have hsome := dictFold_isSome selRoll regs (fun _ => none) (pyStrip v)
      ⟨r, hr, (selRoll_eq_some r _).mpr ⟨hroll, ht⟩⟩
    obtain ⟨rr, hrr⟩ := Option.isSome_iff_exists.mp hsome
    have hprops := dictFold_some selRoll regs (fun _ => none) (pyStrip v) rr hrr
    rcases hprops with ⟨hmem, hsel⟩ | habs
    · refine ⟨rr, ?_, hmem, ((selRoll_eq_some rr _).mp hsel).1⟩
      rw [hres]
      simp only [hidnone]
      rw [show (build_indexes regs).2.1 (pyStrip v) = some rr from hrr]
    · exact absurd habs (by simp)
  · intro hnoid hnoroll ⟨r, hr, nm, hnm, hnm0, hlow⟩
    have hidnone : (build_indexes regs).1 (pyStrip v) = none := by
      apply dictFold_none_of
      intro r' hr' hsel
      exact hnoid ⟨r', hr', ((selId_eq_some r' _).mp hsel).1,
        ((selId_eq_some r' _).mp hsel).2⟩
    have hrollnone : (build_indexes regs).2.1 (pyStrip v) = none := by
      apply dictFold_none_of
      intro r' hr' hsel
      exact hnoroll ⟨r', hr', ((selRoll_eq_some r' _).mp hsel).1,
        ((selRoll_eq_some r' _).mp hsel).2⟩
    have hsome := dictFold_isSome selName regs (fun _ => none) (pyLower (pyStrip v))
      ⟨r, hr, (selName_eq_some r _).mpr ⟨nm, hnm, hnm0, hlow⟩⟩
    obtain ⟨rr, hrr⟩ := Option.isSome_iff_exists.mp hsome
    have hprops := dictFold_some selName regs (fun _ => none) (pyLower (pyStrip v)) rr hrr
    rcases hprops with ⟨hmem, hsel⟩ | habs
    · refine ⟨rr, ?_, hmem, (selName_eq_some rr _).mp hsel⟩
      rw [hres]
      simp only [hidnone, hrollnone]
      exact hrr
    · exact absurd habs (by simp)
  · intro hnoid hnoroll hnoname
    have hidnone : (build_indexes regs).1 (pyStrip v) = none := by
      apply dictFold_none_of
      intro r' hr' hsel
      exact hnoid ⟨r', hr', ((selId_eq_some r' _).mp hsel).1,
        ((selId_eq_some r' _).mp hsel).2⟩
    have hrollnone : (build_indexes regs).2.1 (pyStrip v) = none := by
      apply dictFold_none_of
      intro r' hr' hsel
      exact hnoroll ⟨r', hr', ((selRoll_eq_some r' _).mp hsel).1,
        ((selRoll_eq_some r' _).mp hsel).2⟩
    have hnamenone : (build_indexes regs).2.2 (pyLower (pyStrip v)) = none := by
      apply dictFold_none_of
      intro r' hr' hsel
      obtain ⟨nm, hnm, hnm0, hlow⟩ := (selName_eq_some r' _).mp hsel
      exact hnoname ⟨r', hr', nm, hnm, hnm0, hlow⟩
    have hresnone : resolve_referer (some v) (build_indexes regs).1
        (build_indexes regs).2.1 (build_indexes regs).2.2 = none := by
      rw [hres]
      simp only [hidnone, hrollnone]
      exact hnamenone
    refine ⟨hresnone, ?_⟩
    simp only [build_ref_section, hrb]
    rw [if_neg hv]
    simp only [hresnone]

/-- Witness for C6: the spec's concrete case — A has roll "1001", B has
name "1001"; a referral "1001" resolves to the roll match A, not the name
match B. -/
theorem referral_resolution_order_witness :
    ∃ rr, resolve_referer (some "1001") (build_indexes [regA, regB]).1
        (build_indexes [regA, regB]).2.1 (build_indexes [regA, regB]).2.2 = some rr ∧
      rr ∈ [regA, regB] ∧ rr.roll = some (pyStrip "1001") :=
  (referral_resolution_order [regA, regB] "1001" regC (fun _ => none)
    (by decide) rfl).2.1 (by decide) ⟨by decide, by decide⟩

/-- C10: a non-empty ids filter keeps exactly the records whose
`registration_id` lies in the set of stripped truthy requested ids; records
lacking an id are excluded and the limit argument has no effect. -/
theorem filter_registrants_ids_spec (regs : List Registrant) (l : List String)
    (limit : Option Int) (h : l ≠ []) :
    filter_registrants regs (some l) limit =
      regs.filter (fun r => decide (∃ i ∈ l, i ≠ "" ∧ pyStrip i ≠ "" ∧
        r.registration_id = some (pyStrip i))) ∧
    (∀ r ∈ filter_registrants regs (some l) limit, r.registration_id ≠ none) ∧
    (∀ lim2, filter_registrants regs (some l) limit = filter_registrants regs (some l) lim2) := by
  have hne : l.isEmpty = false := by
    cases l with
    | nil => exact absurd rfl h
    | cons a t => rfl
  have hmain : filter_registrants regs (some l) limit =
      regs.filter (fun r => decide (∃ i ∈ l, i ≠ "" ∧ pyStrip i ≠ "" ∧
        r.registration_id = some (pyStrip i))) := by
    simp only [filter_registrants, hne, Bool.false_eq_true, if_false]
    apply List.filter_congr
    intro r _
    cases hr : r.registration_id with
    | none =>
      simp [hr]
    | some v =>
      simp only [hr]
      rw [Bool.eq_iff_iff]
      simp only [List.contains, List.elem_eq_mem, decide_eq_true_eq, List.mem_map,
        List.mem_filter, Bool.and_eq_true, ne_eq, Option.some_inj]
      constructor
      · rintro ⟨i, ⟨hi, h1, h2⟩, h3⟩
        exact ⟨i, hi, h1, h2, h3.symm⟩
      · rintro ⟨i, hi, h1, h2, h3⟩
        exact ⟨i, ⟨hi, h1, h2⟩, h3.symm⟩
  refine ⟨hmain, ?_, ?_⟩
  · intro r hr hnone
    rw [hmain] at hr
    obtain ⟨-, hdec⟩ := List.mem_filter.mp hr
    obtain ⟨i, _, _, _, hid⟩ := of_decide_eq_true hdec
    rw [hnone] at hid
    cases hid
  · intro lim2
    simp only [filter_registrants, hne, Bool.false_eq_true, if_false]

/-- Witness for C10 with a concrete filter request. -/
theorem filter_registrants_ids_spec_witness :
    filter_registrants [regA, regNoId] (some ["SC-B-0001"]) (some 1) =
      [regA, regNoId].filter (fun r => decide (∃ i ∈ ["SC-B-0001"], i ≠ "" ∧ pyStrip i ≠ "" ∧
        r.registration_id = some (pyStrip i))) ∧
    filter_registrants [regA, regNoId] (some ["SC-B-0001"]) (some 1) =
      filter_registrants [regA, regNoId] (some ["SC-B-0001"]) none :=
  ⟨(filter_registrants_ids_spec [regA, regNoId] ["SC-B-0001"] (some 1) (by decide)).1,
   (filter_registrants_ids_spec [regA, regNoId] ["SC-B-0001"] (some 1) (by decide)).2.2 none⟩

/-- C9 (code evaluation at the failing input): with `registrants.json`
absent the run returns early, generating nothing, but the process exit
status is 0 — not the nonzero status the claim requires. -/
theorem missing_input_exit_status :
    checkInputs false true = MainOutcome.missingInput "registrants.json" ∧
    mainExitCode false true = 0 ∧
    generationReached false true = false :=
  ⟨rfl, rfl, rfl⟩

/-- C7 (code evaluation at the failing input): a registrant lacking
`registration_id` is skipped by the page loop (no page originates from it,
and exactly one skip warning is counted), but it survives the placeholder
filter in front of the master list, where `reg['registration_id']` raises
`KeyError` and the run crashes. -/
theorem missing_id_crashes_run :
    generateRun (fun _ => "") [regNoId] none none =
      Except.error "KeyError: registration_id" ∧
    (pageOutputsT (fun _ => "") (addPlaceholders [regNoId])).all
      (fun x => x.1 != regNoId) = true ∧
    skipWarnings (addPlaceholders [regNoId]) = 1 := by
  refine ⟨by rfl, by decide, by decide⟩

theorem count_placeholder_zero (t : List String) (q : String → Bool) (pid : String)
    (h : pid ∉ t) :
    (((t.filter q).map placeholderEntry).filter
      (fun r => r.registration_id == some pid)).length = 0 := by
  induction t with
  | nil => rfl
  | cons a tl ih =>
    simp only [List.mem_cons] at h
    push_neg at h
    have hne : ((placeholderEntry a).registration_id == some pid) = false := by
      simp [placeholderEntry]
      exact fun he => h.1 he.symm
    by_cases hq : q a
    · rw [List.filter_cons_of_pos hq, List.map_cons, List.filter_cons_of_neg (by rw [hne]; simp)]
      exact ih h.2
    · rw [List.filter_cons_of_neg (by rw [Bool.not_eq_true]; exact Bool.of_not_eq_true hq)]
      exact ih h.2

theorem count_placeholder_mem (l : List String) (q : String → Bool) (pid : String) :
    l.Nodup → pid ∈ l →
    (((l.filter q).map placeholderEntry).filter
      (fun r => r.registration_id == some pid)).length = if q pid then 1 else 0 := by
  induction l with
  | nil => intro _ hm; cases hm
  | cons a tl ih =>
    intro hnd hm
    rw [List.nodup_cons] at hnd
    rcases List.mem_cons.mp hm with rfl | hmt
    · by_cases hq : q pid
      · rw [List.filter_cons_of_pos hq, List.map_cons,
          List.filter_cons_of_pos (by simp [placeholderEntry]), if_pos hq]
        simp only [List.length_cons]
        rw [count_placeholder_zero tl q pid hnd.1]
      · rw [List.filter_cons_of_neg (by rw [Bool.not_eq_true]; exact Bool.of_not_eq_true hq),
          if_neg hq]
        exact count_placeholder_zero tl q pid hnd.1
    · have hne : pid ≠ a := fun he => hnd.1 (he ▸ hmt)
      have hstep : ((placeholderEntry a).registration_id == some pid) = false := by
        simp [placeholderEntry]
        exact fun he => hne he.symm
      by_cases hq : q a
      · rw [List.filter_cons_of_pos hq, List.map_cons,
          List.filter_cons_of_neg (by rw [hstep]; simp)]
        exact ih hnd.2 hmt
      · rw [List.filter_cons_of_neg (by rw [Bool.not_eq_true]; exact Bool.of_not_eq_true hq)]
        exact ih hnd.2 hmt

/-- C8 (amended): each configured placeholder id absent from the input gets
exactly one synthetic entry appended (none when the id is already present);
every registrant flagged `is_placeholder` is excluded from the master-list
rows; and every registrant carrying a truthy `registration_id` — in
particular every injected placeholder — receives a per-registrant page.
(The amendment: a registrant flagged `is_placeholder` but lacking a
`registration_id` receives no page, see the counterexample.) -/
theorem placeholder_injection_spec (regs : List Registrant) (render : Registrant → String) :
    (addPlaceholders regs = regs ++
      (PLACEHOLDER_IDS.filter
        (fun pid => !((regs.filterMap (fun r => r.registration_id)).contains pid))).map
        placeholderEntry) ∧
    (∀ r ∈ (PLACEHOLDER_IDS.filter
        (fun pid => !((regs.filterMap (fun r => r.registration_id)).contains pid))).map
        placeholderEntry, ∃ pid ∈ PLACEHOLDER_IDS, r = placeholderEntry pid) ∧
    (∀ pid ∈ PLACEHOLDER_IDS,
      (((PLACEHOLDER_IDS.filter
        (fun pid2 => !((regs.filterMap (fun r => r.registration_id)).contains pid2))).map
        placeholderEntry).filter (fun r => r.registration_id == some pid)).length =
        if ∃ r ∈ regs, r.registration_id = some pid then 0 else 1) ∧
    (∀ (regs2 : List Registrant) (lrc : List (String × String)) (r : Registrant),
      r.is_placeholder = true →
      r ∉ ((List.zip regs2 lrc).filter (fun x => !x.1.is_placeholder)).map (fun x => x.1)) ∧
    (∀ (regs2 : List Registrant) (r : Registrant) (rid : String), r ∈ regs2 →
      r.registration_id = some rid → rid ≠ "" →
      (r, idToFile rid, render r) ∈ pageOutputsT render regs2) := by
  refine ⟨rfl, ?_, ?_, ?_, ?_⟩
  · intro r hr
    rcases List.mem_map.mp hr with ⟨pid, hpid, hpr⟩
    exact ⟨pid, (List.mem_filter.mp hpid).1, hpr.symm⟩
  · intro pid hpid
    rw [count_placeholder_mem PLACEHOLDER_IDS _ pid (by decide) hpid]
    by_cases hex : ∃ r ∈ regs, r.registration_id = some pid
    · rw [if_pos hex]
      have hc : (regs.filterMap (fun r => r.registration_id)).contains pid = true := by
        rcases hex with ⟨r, hr, hid⟩
        simp only [List.contains, List.elem_eq_mem, decide_eq_true_eq]
        exact List.mem_filterMap.mpr ⟨r, hr, hid⟩
      rw [if_neg]
      rw [hc]
      simp
    · rw [if_neg hex]
      have hc : (regs.filterMap (fun r => r.registration_id)).contains pid = false := by
        rw [Bool.eq_false_iff]
        intro hcon
        simp only [List.contains, List.elem_eq_mem, decide_eq_true_eq] at hcon
        rcases List.mem_filterMap.mp hcon with ⟨r, hr, hid⟩
        exact hex ⟨r, hr, hid⟩
      rw [if_pos]
      rw [hc]
      simp
  · intro regs2 lrc r hp hmem
    rcases List.mem_map.mp hmem with ⟨x, hx, hx1⟩
    have hfil := (List.mem_filter.mp hx).2
    rw [hx1, hp] at hfil
    simp at hfil
  · intro regs2 r rid hm hid hrid
    unfold pageOutputsT
    apply List.mem_filterMap.mpr
    refine ⟨r, hm, ?_⟩
    have hg : getS r.registration_id = rid := by rw [hid]; rfl
    rw [hg, if_neg hrid]

/-- Counterexample for C8 as stated: an input registrant flagged
`is_placeholder` but lacking a `registration_id` is a member of the working
set, yet no generated page originates from it. -/
theorem placeholder_page_counterexample :
    regPlaceholderNoId ∈ addPlaceholders [regPlaceholderNoId] ∧
    regPlaceholderNoId.is_placeholder = true ∧
    filter_registrants (addPlaceholders [regPlaceholderNoId]) none none =
      addPlaceholders [regPlaceholderNoId] ∧
    (pageOutputsT (fun _ => "") (addPlaceholders [regPlaceholderNoId])).all
      (fun x => x.1 != regPlaceholderNoId) = true := by
  refine ⟨by decide, rfl, rfl, by decide⟩

/-- Witness for C8: with A present, no duplicate "SC-B-0001" placeholder is
appended, and a synthetic placeholder with its id receives a page. -/
theorem placeholder_injection_spec_witness :
    ((((PLACEHOLDER_IDS.filter
        (fun pid2 => !(([regA].filterMap (fun r => r.registration_id)).contains pid2))).map
        placeholderEntry).filter (fun r => r.registration_id == some "SC-B-0001")).length =
      if ∃ r ∈ [regA], r.registration_id = some "SC-B-0001" then 0 else 1) ∧
    (placeholderEntry "SC-G-0001", idToFile "SC-G-0001", "") ∈
      pageOutputsT (fun _ => "") [placeholderEntry "SC-G-0001"] :=
  ⟨(placeholder_injection_spec [regA] (fun _ => "")).2.2.1 "SC-B-0001" (by decide),
   (placeholder_injection_spec [regA] (fun _ => "")).2.2.2.2 [placeholderEntry "SC-G-0001"]
     (placeholderEntry "SC-G-0001") "SC-G-0001" (by decide) rfl (by decide)⟩
